import Mathlib

/-!
Verification of the NetBIOS Name Service codec (`tornado_smb/nbt.py`).

Python byte strings and (ASCII) text strings are both modelled as
`List Nat` of byte values; fallible operations return `Except NBTError`.
The definitions below follow the source functions of the same names.
-/

/-- Error taxonomy: one constructor per kind of Python exception reachable
in the embedded code (the two `ValueError` raise sites inside
`NBName.from_bytes` are the spec's `MalformedNameError`; the constructor
length check is the spec's `NameTooLongError`). -/
inductive NBTError where
  | nameTooLong
  | malformedName
  | indexError
  | unicodeError
  | valueError
  | structError
deriving DecidableEq, Repr

deriving instance DecidableEq for Except

def ORD_A : Nat := 65

/-- The one-character wildcard string `'*'`. -/
def WILDCARD : List Nat := [42]

def ZERO : Nat := 0

def NB_NAME_FULL_LEN : Nat := 16

def NB_NAME_FULL_LEN_BYTES : Nat := NB_NAME_FULL_LEN * 2

def NB_NAME_VALUE_LEN : Nat := NB_NAME_FULL_LEN - 1

/-- `bytes.ljust(WILDCARD.encode(), 15, b"\x00")`. -/
def NB_NAME_WILDCARD_PADDED : List Nat :=
  WILDCARD ++ List.replicate (NB_NAME_VALUE_LEN - WILDCARD.length) ZERO

/-- Python `str.upper` on one ASCII code point. -/
def pyUpperChar (b : Nat) : Nat := if 97 ≤ b ∧ b ≤ 122 then b - 32 else b

/-- Python `str.upper` on ASCII text. -/
def pyUpper (s : List Nat) : List Nat := s.map pyUpperChar

/-- The ASCII characters removed by Python `str.strip()`. -/
def isPySpace (b : Nat) : Bool :=
  b == 32 || b == 9 || b == 10 || b == 11 || b == 12 || b == 13

/-- Python `str.strip()` on ASCII text. -/
def pyStrip (s : List Nat) : List Nat :=
  ((s.dropWhile isPySpace).reverse.dropWhile isPySpace).reverse

/-- Python `s[i]` on bytes or str: `IndexError` when out of range. -/
def pyGet (l : List Nat) (i : Nat) : Except NBTError Nat :=
  match l.get? i with
  | some v => .ok v
  | none => .error .indexError

/-- Python `s[-1]`: the last element, `IndexError` on an empty sequence. -/
def pyGetLast (l : List Nat) : Except NBTError Nat :=
  match l.getLast? with
  | some v => .ok v
  | none => .error .indexError

/-- ASCII fragment of Python `bytes.decode()` (UTF-8): on pure-ASCII data
it is the identity.  The development only evaluates it on ASCII data. -/
def pyDecode (l : List Nat) : Except NBTError (List Nat) :=
  if l.all (fun b => b < 128) then .ok l else .error .unicodeError

/-- Python `str.split(sep)` for a one-character separator. -/
def pySplit (sep : Nat) : List Nat → List (List Nat)
  | [] => [[]]
  | a :: rest =>
    if a = sep then [] :: pySplit sep rest
    else
      match pySplit sep rest with
      | [] => [[a]]
      | c :: cs => (a :: c) :: cs

/-- Python `bytes([p])`: rejects values outside one byte. -/
def pyBytesSingle (p : Nat) : Except NBTError Nat :=
  if p ≤ 255 then .ok p else .error .valueError

/-- `NBName`: value, scope and purpose as stored by the constructor. -/
structure NBName where
  value : List Nat
  scope : List Nat
  purpose : Nat
deriving DecidableEq, Repr

/-- `scope.upper() if scope else ""` from `NBName.__init__`. -/
def scopeOrEmpty : Option (List Nat) → List Nat
  | none => []
  | some s => if s.isEmpty then [] else pyUpper s

/-- `NBName.__init__`: rejects a value longer than 15 bytes, upper-cases
value and scope, and stores the purpose as a single byte. -/
def mkNBName (value : List Nat) (scope : Option (List Nat)) (purpose : Nat) :
    Except NBTError NBName :=
  if value.length > NB_NAME_VALUE_LEN then .error .nameTooLong
  else
    match pyBytesSingle purpose with
    | .error e => .error e
    | .ok p => .ok { value := pyUpper value, scope := scopeOrEmpty scope, purpose := p }

/-- `NBName.encode_byte`: one byte to two letters via the nibble map. -/
def encode_byte (value : Nat) : List Nat :=
  [(0x0F &&& (value >>> 4)) + ORD_A, (0x0F &&& value) + ORD_A]

/-- `NB_NAME_FMT.format(value)`: left-justify in 15 columns with spaces. -/
def padName (value : List Nat) : List Nat :=
  value ++ List.replicate (NB_NAME_VALUE_LEN - value.length) 32

/-- `NBName._encode_value`: pad the value (wildcard gets zero padding),
append the purpose byte, then encode every byte to two letters. -/
def encode_value (n : NBName) : List Nat :=
  (((if n.value = WILDCARD then NB_NAME_WILDCARD_PADDED else padName n.value)
      ++ [n.purpose]).map encode_byte).flatten

/-- The inner `pack_item` of `NBName.to_bytes`: a length byte followed by
the payload; `bytes((len,))` rejects a length above 255. -/
def pack_item (item : List Nat) : Except NBTError (List Nat) :=
  if item.length > 255 then .error .valueError
  else .ok (item.length :: item)

/-- `map(pack_item, chunks)` as consumed left to right by `b"".join`. -/
def packItems : List (List Nat) → Except NBTError (List (List Nat))
  | [] => .ok []
  | c :: cs =>
    match pack_item c with
    | .error e => .error e
    | .ok p =>
      match packItems cs with
      | .error e => .error e
      | .ok ps => .ok (p :: ps)

/-- `NBName.to_bytes`: encoded value, then the scope labels (scope split
on dots when non-empty), each length-prefixed, then the root label. -/
def to_bytes (n : NBName) : Except NBTError (List Nat) :=
  match packItems (encode_value n :: (if n.scope.isEmpty then [] else pySplit 46 n.scope)) with
  | .error e => .error e
  | .ok packed => .ok (packed.flatten ++ [ZERO])

/-- `NBName.decode_word`: in Python, a byte below ASCII `A` makes an
operand of the bitwise or negative, and `bytes((v,))` rejects anything
outside 0..255, so both cases raise `ValueError`. -/
def decode_word (hi_byte lo_byte : Nat) : Except NBTError Nat :=
  if hi_byte < ORD_A ∨ lo_byte < ORD_A then .error .valueError
  else
    let v := ((hi_byte - ORD_A) <<< 4) ||| (lo_byte - ORD_A)
    if v > 255 then .error .valueError else .ok v

/-- `NBName.decode_bytes`: pairwise decode; an odd tail hits the
`data[i + 1]` access out of range. -/
def decode_bytes : List Nat → Except NBTError (List Nat)
  | [] => .ok []
  | [_] => .error .indexError
  | hi :: lo :: rest =>
    match decode_word hi lo with
    | .error e => .error e
    | .ok b =>
      match decode_bytes rest with
      | .error e => .error e
      | .ok bs => .ok (b :: bs)

/-- Python 3 `int == str` is always `False`: the source compares the raw
byte `value[0]` with the one-character string `WILDCARD`. -/
def pyIntEqStr (_ : Nat) (_ : List Nat) : Bool := false

/-- `NBName.decode_value_and_purpose`. -/
def decode_value_and_purpose (data : List Nat) : Except NBTError (List Nat × Nat) :=
  match pyGet (data.take NB_NAME_VALUE_LEN) 0 with
  | .error e => .error e
  | .ok v0 =>
    match (if pyIntEqStr v0 WILDCARD then .ok WILDCARD
           else
             match pyDecode (data.take NB_NAME_VALUE_LEN) with
             | .error e => .error e
             | .ok s => .ok (pyStrip s) : Except NBTError (List Nat)) with
    | .error e => .error e
    | .ok value =>
      match pyGet data NB_NAME_VALUE_LEN with
      | .error e => .error e
      | .ok purpose => .ok (value, purpose)

/-- The `while` loop of `NBName.decode_scope`.  Every iteration consumes
at least the length byte, so `data.length` iterations always suffice and
the zero-fuel branch is unreachable from `decode_scope`. -/
def decode_scope_go : Nat → List Nat → Except NBTError (List (List Nat))
  | _, [] => .ok []
  | 0, _ :: _ => .error .indexError
  | fuel + 1, len :: rest =>
    match pyDecode (rest.take len) with
    | .error e => .error e
    | .ok chunk =>
      match decode_scope_go fuel (rest.drop len) with
      | .error e => .error e
      | .ok chunks => .ok (chunk :: chunks)

/-- `NBName.decode_scope`: length-prefixed labels joined with a dot; the
slice `data[offset:offset + length]` silently truncates a label whose
length byte runs past the end of the data. -/
def decode_scope (data : List Nat) : Except NBTError (List Nat) :=
  if data.isEmpty then .ok []
  else
    match decode_scope_go data.length data with
    | .error e => .error e
    | .ok chunks => .ok (List.intercalate [46] chunks)

/-- `NBName.from_bytes`. -/
def from_bytes (data : List Nat) : Except NBTError NBName :=
  match pyGetLast data with
  | .error e => .error e
  | .ok last_byte =>
    if last_byte ≠ ZERO then .error .malformedName
    else
      match pyGet data 0 with
      | .error e => .error e
      | .ok len =>
        if len ≠ NB_NAME_FULL_LEN_BYTES then .error .malformedName
        else
          match decode_bytes ((data.drop 1).take len) with
          | .error e => .error e
          | .ok full_name =>
            match decode_value_and_purpose full_name with
            | .error e => .error e
            | .ok vp =>
              match decode_scope ((data.drop (1 + len)).dropLast) with
              | .error e => .error e
              | .ok scope => mkNBName vp.1 (some scope) vp.2

def NB_NS_R_REQUEST : Nat := 0

def NB_NS_OPCODE_QUERY : Nat := 0x0

def NB_NS_NM_FLAGS_B : Nat := 1 <<< 0

def NB_NS_NM_FLAGS_RD : Nat := 1 <<< 4

def NB_NS_RCODE_POS_RSP : Nat := 0x0

def NBNS_QUESTION_TYPE_NB : Nat := 0x0020

def NBNS_QUESTION_CLASS_IN : Nat := 0x0001

/-- The header fields held by `NBNSMessage`. -/
structure NBNSMessageHeader where
  name_trn_id : Nat
  r : Nat
  opcode : Nat
  nm_flags : Nat
  rcode : Nat
  qdcount : Nat
  ancount : Nat
  nscount : Nat
  arcount : Nat
deriving DecidableEq, Repr

/-- `struct.pack(">H", v)`: one big-endian 16-bit word; `struct.error`
for a value outside the range of the format. -/
def packH (v : Nat) : Except NBTError (List Nat) :=
  if v < 65536 then .ok [v / 256, v % 256] else .error .structError

/-- `struct.pack(">6H", a, b, c, d, e, f)`. -/
def pack6H (a b c d e f : Nat) : Except NBTError (List Nat) :=
  match packH a with
  | .error err => .error err
  | .ok x1 =>
    match packH b with
    | .error err => .error err
    | .ok x2 =>
      match packH c with
      | .error err => .error err
      | .ok x3 =>
        match packH d with
        | .error err => .error err
        | .ok x4 =>
          match packH e with
          | .error err => .error err
          | .ok x5 =>
            match packH f with
            | .error err => .error err
            | .ok x6 => .ok (x1 ++ x2 ++ x3 ++ x4 ++ x5 ++ x6)

/-- `struct.pack(">2H", a, b)`. -/
def pack2H (a b : Nat) : Except NBTError (List Nat) :=
  match packH a with
  | .error err => .error err
  | .ok x1 =>
    match packH b with
    | .error err => .error err
    | .ok x2 => .ok (x1 ++ x2)

/-- `NBNSMessage.build_header`: the flags word masks each subfield and
packs six big-endian 16-bit words. -/
def build_header (m : NBNSMessageHeader) : Except NBTError (List Nat) :=
  let flags :=
    (0b0001111 &&& m.rcode)
    ||| ((0b1111111 &&& m.nm_flags) <<< 4)
    ||| ((0b0001111 &&& m.opcode) <<< 11)
    ||| ((0b0000001 &&& m.r) <<< 15)
  pack6H m.name_trn_id flags m.qdcount m.ancount m.nscount m.arcount

/-- `NBNSRequest` state: header fields plus the question entry fields.
The question name is held as the already-encoded wire bytes, exactly
what `build_query_entry` concatenates. -/
structure NBNSRequest where
  header : NBNSMessageHeader
  question_name : List Nat
  question_type : Nat
  question_class : Nat
deriving DecidableEq, Repr

/-- `NBNSRequest.build_query_entry`. -/
def build_query_entry (rq : NBNSRequest) : Except NBTError (List Nat) :=
  match pack2H rq.question_type rq.question_class with
  | .error e => .error e
  | .ok tail => .ok (rq.question_name ++ tail)

/-- `NBNSMessage.to_bytes` for a request: header plus question body. -/
def request_to_bytes (rq : NBNSRequest) : Except NBTError (List Nat) :=
  match build_header rq.header with
  | .error e => .error e
  | .ok h =>
    match build_query_entry rq with
    | .error e => .error e
    | .ok b => .ok (h ++ b)

/-- `NBNSNameQueryRequest.__init__`: fixes every field except the
transaction id, the question name and the broadcast flag. -/
def nameQueryRequest (name_trn_id : Nat) (question_name : List Nat) (broadcast : Bool) :
    NBNSRequest :=
  { header := {
      name_trn_id := name_trn_id,
      r := NB_NS_R_REQUEST,
      opcode := NB_NS_OPCODE_QUERY,
      nm_flags := NB_NS_NM_FLAGS_RD ||| (if broadcast then NB_NS_NM_FLAGS_B else 0),
      rcode := NB_NS_RCODE_POS_RSP,
      qdcount := 0x0001,
      ancount := 0x0000,
      nscount := 0x0000,
      arcount := 0x0000 },
    question_name := question_name,
    question_type := NBNS_QUESTION_TYPE_NB,
    question_class := NBNS_QUESTION_CLASS_IN }

/-- The logical name "FILESRV". -/
def FILESRV : List Nat := [70, 73, 76, 69, 83, 82, 86]

/-- Wire encoding of the padded "FILESRV" plus purpose 0x20, nibble-mapped
to the letters "EGEJEMEFFDFCFG" followed by nine times "CA". -/
def filesrvEncoded : List Nat :=
  [69, 71, 69, 74, 69, 77, 69, 70, 70, 68, 70, 67, 70, 71] ++
  (List.replicate 9 [67, 65]).flatten

/-- C6: `LogicalName(value="*")` with purpose 0x00 and empty scope encodes
to exactly the byte 0x20, then the 32 ASCII bytes
"CKAAAAAAAAAAAAAAAAAAAAAAAAAAAAAA" (C = 67, K = 75, A = 65), then 0x00. -/
theorem wildcard_encoding_vector :
    (mkNBName WILDCARD none 0x00).bind to_bytes =
      .ok ([0x20, 67, 75] ++ List.replicate 30 65 ++ [0x00]) := by
  rfl

/-- C1: the round trip is broken at the wildcard name.  Decoding the
encoding of `LogicalName("*")` yields the value `'*'` followed by the 14
NUL padding characters instead of `'*'`: the source's wildcard-detection
branch compares an `int` with a `str`, which is always `False` in
Python 3, so `str.strip()` (which does not strip NUL) is applied. -/
theorem wildcard_roundtrip_dead_branch :
    ((mkNBName WILDCARD none 0x00).bind to_bytes).bind from_bytes =
      .ok { value := 42 :: List.replicate 14 0, scope := [], purpose := 0 } ∧
    (42 :: List.replicate 14 0 : List Nat) ≠ WILDCARD := by
  constructor
  · rfl
  · decide

/-- C2: the full Name Query request for transaction id 0xABCD, question
name "FILESRV" with purpose 0x20, and broadcast: the 12-byte header
AB CD 01 10 00 01 00 00 00 00 00 00 (r = 0, opcode = 0, nm-flags =
RD|B = 0x11 packed at bit 4, rcode = 0, qdcount = 1, other counts 0),
then the encoded question name, then 00 20 00 01. -/
theorem nameQueryRequest_filesrv_bytes :
    ((mkNBName FILESRV none 0x20).bind to_bytes).bind
        (fun q => request_to_bytes (nameQueryRequest 0xABCD q true)) =
      .ok ([0xAB, 0xCD, 0x01, 0x10, 0x00, 0x01, 0x00, 0x00, 0x00, 0x00, 0x00, 0x00]
        ++ ([0x20] ++ filesrvEncoded ++ [0x00])
        ++ [0x00, 0x20, 0x00, 0x01]) ∧
    (mkNBName FILESRV none 0x20).bind to_bytes =
      .ok ([0x20] ++ filesrvEncoded ++ [0x00]) := by
  constructor
  · rfl
  · rfl

/-- C3 counterexample: the header for transaction id 0x1234 with
nm-flags = RD (0x10) and everything else as in the claim does not equal
the byte sequence 12 34 01 10 00 01 00 00 00 00 00 00 the claim names:
the flags word is 0x10 << 4 = 0x0100, whose big-endian bytes are 01 00. -/
theorem build_header_rd_example_ne_claimed_bytes :
    build_header ⟨0x1234, 0, NB_NS_OPCODE_QUERY, NB_NS_NM_FLAGS_RD, 0, 1, 0, 0, 0⟩ ≠
      .ok [0x12, 0x34, 0x01, 0x10, 0x00, 0x01, 0x00, 0x00, 0x00, 0x00, 0x00, 0x00] := by
  decide

/-- C3 amended: that header is the 12 bytes
12 34 01 00 00 01 00 00 00 00 00 00. -/
theorem build_header_rd_example_bytes :
    build_header ⟨0x1234, 0, NB_NS_OPCODE_QUERY, NB_NS_NM_FLAGS_RD, 0, 1, 0, 0, 0⟩ =
      .ok [0x12, 0x34, 0x01, 0x00, 0x00, 0x01, 0x00, 0x00, 0x00, 0x00, 0x00, 0x00] := by
  rfl

/-- C5 counterexample: `build_header` is not total.  A transaction id of
0x10000 is outside the `>H` range of `struct.pack`, which raises
`struct.error` instead of masking. -/
theorem build_header_out_of_range_trn_errors :
    build_header ⟨0x10000, 0, 0, 0, 0, 1, 0, 0, 0⟩ = .error .structError := by
  rfl

/-- C4 counterexample: a buffer whose scope-label length byte (5) extends
past the end of the buffer (only the two label bytes "CD" follow before
the terminator) is decoded without any error: the label is silently
shortened to "CD".  The name region encodes "AB" with purpose 0. -/
theorem from_bytes_truncated_scope_label_ok :
    from_bytes ([0x20, 69, 66, 69, 67] ++ (List.replicate 13 [67, 65]).flatten
        ++ [65, 65] ++ [5, 67, 68, 0]) =
      .ok { value := [65, 66], scope := [67, 68], purpose := 0 } := by
  rfl

/-- C10: decoding the empty byte string fails with the out-of-bounds
access of `data[-1]`, which precedes every validation check, not with
`MalformedNameError`. -/
theorem from_bytes_empty_index_error :
    from_bytes ([] : List Nat) = .error .indexError ∧
    NBTError.indexError ≠ NBTError.malformedName := by
  constructor
  · rfl
  · decide

/-- Each letter produced by `encode_byte` is in the range 'A'..'P'. -/
theorem encode_byte_mem (b : Nat) : ∀ x ∈ encode_byte b, ORD_A ≤ x ∧ x ≤ 80 := by
  intro x hx
  have h1 : 0x0F &&& (b >>> 4) ≤ 15 := Nat.and_le_left
  have h2 : 0x0F &&& b ≤ 15 := Nat.and_le_left
  simp [encode_byte, ORD_A] at hx ⊢
  rcases hx with rfl | rfl <;> omega

/-- Encoding a byte list doubles its length. -/
theorem flatten_map_encode_byte_length (l : List Nat) :
    ((l.map encode_byte).flatten).length = 2 * l.length := by
  induction l with
  | nil => simp
  | cons a t ih =>
    simp only [List.map_cons, List.flatten_cons, List.length_append, List.length_cons, ih,
      encode_byte, List.length_nil]
    omega

/-- Every byte of an encoded byte list is in the range 'A'..'P'. -/
theorem flatten_map_encode_byte_mem (l : List Nat) :
    ∀ x ∈ (l.map encode_byte).flatten, ORD_A ≤ x ∧ x ≤ 80 := by
  intro x hx
  rw [List.mem_flatten] at hx
  obtain ⟨li, hli, hxli⟩ := hx
  rw [List.mem_map] at hli
  obtain ⟨b, _, rfl⟩ := hli
  exact encode_byte_mem b x hxli

/-- For a value of at most 15 bytes the encoded name is exactly 32 bytes. -/
theorem encode_value_length (n : NBName) (h : n.value.length ≤ 15) :
    (encode_value n).length = 32 := by
  unfold encode_value
  rw [flatten_map_encode_byte_length]
  by_cases hw : n.value = WILDCARD
  · rw [if_pos hw]
    simp [NB_NAME_WILDCARD_PADDED, WILDCARD, NB_NAME_VALUE_LEN, NB_NAME_FULL_LEN]
  · rw [if_neg hw]
    simp only [List.length_append, List.length_cons, List.length_nil, padName,
      List.length_replicate, NB_NAME_VALUE_LEN, NB_NAME_FULL_LEN]
    omega

/-- A name accepted by the constructor has a value of at most 15 bytes. -/
theorem mk_ok_value_short (v : List Nat) (s : Option (List Nat)) (p : Nat) (n : NBName)
    (h : mkNBName v s p = .ok n) : n.value.length ≤ 15 := by
  unfold mkNBName at h
  by_cases hlen : v.length > NB_NAME_VALUE_LEN
  · rw [if_pos hlen] at h
    exact absurd h (by simp)
  · rw [if_neg hlen] at h
    cases hbs : pyBytesSingle p with
    | error e =>
      rw [hbs] at h
      exact absurd h (by simp)
    | ok q =>
      rw [hbs] at h
      cases h
      simp only [pyUpper, List.length_map]
      simp only [NB_NAME_VALUE_LEN, NB_NAME_FULL_LEN] at hlen
      omega

/-- C4 amended: a scope-label length byte that extends past the end of
the scope data does not raise; the label is silently shortened to the
bytes available and decoding succeeds. -/
theorem decode_scope_truncates_overlong_label (len : Nat) (rest : List Nat)
    (hover : rest.length < len) (hascii : ∀ b ∈ rest, b < 128) :
    decode_scope (len :: rest) = .ok rest := by
  have htake : rest.take len = rest := List.take_of_length_le (Nat.le_of_lt hover)
  have hdrop : rest.drop len = [] := List.drop_eq_nil_of_le (Nat.le_of_lt hover)
  have hdec : pyDecode rest = .ok rest := by
    unfold pyDecode
    rw [if_pos]
    simp only [List.all_eq_true, decide_eq_true_eq]
    exact hascii
  unfold decode_scope
  simp only [List.isEmpty_cons, Bool.false_eq_true, if_false, List.length_cons]
  rw [decode_scope_go, htake, hdec, hdrop]
  simp [decode_scope_go, List.intercalate]

/-- Witness for the amended C4 at a concrete truncated label. -/
theorem decode_scope_truncates_overlong_label_witness :
    decode_scope [5, 65, 66] = .ok [65, 66] :=
  decode_scope_truncates_overlong_label 5 [65, 66] (by decide) (by decide)

/-- C7: on every non-empty buffer whose final byte is non-zero, and on
every non-empty buffer whose first length byte is not 32, decoding stops
at the corresponding validation check with `MalformedNameError` (no
`LogicalName` is returned). -/
theorem from_bytes_malformed_checks (d : List Nat) (hne : d ≠ [])
    (h : d.getLast? ≠ some ZERO ∨ d.head? ≠ some NB_NAME_FULL_LEN_BYTES) :
    from_bytes d = .error .malformedName := by
  match d, hne with
  | a :: rest, _ =>
    have hlast : (a :: rest).getLast? = some ((a :: rest).getLast (by simp)) :=
      List.getLast?_eq_getLast _ _
    unfold from_bytes pyGetLast
    rw [hlast]
    by_cases hz : (a :: rest).getLast (by simp) = 0
    · have hhead : a ≠ 32 := by
        rcases h with h | h
        · exact absurd (by rw [hlast, hz]; rfl) h
        · simpa [NB_NAME_FULL_LEN_BYTES, NB_NAME_FULL_LEN] using h
      rw [hz]
      simp only [ZERO, ne_eq, not_true_eq_false, if_false, ite_not]
      unfold pyGet
      simp only [List.get?]
      simp [NB_NAME_FULL_LEN_BYTES, NB_NAME_FULL_LEN, hhead]
    · simp [ZERO, hz]

/-- Witness for C7: a buffer with a non-zero final byte and a buffer
whose first length byte is not 32. -/
theorem from_bytes_malformed_checks_witness :
    from_bytes [7] = .error .malformedName ∧ from_bytes [0] = .error .malformedName :=
  ⟨from_bytes_malformed_checks [7] (by decide) (Or.inl (by decide)),
   from_bytes_malformed_checks [0] (by decide) (Or.inr (by decide))⟩

/-- C8: constructing a name whose value is 16 bytes fails with
`NameTooLongError` before any encoding, while a 15-byte value succeeds,
with the value stored upper-cased and untruncated. -/
theorem mkNBName_length_guard (v : List Nat) (s : Option (List Nat)) (p : Nat) :
    (v.length = 16 → mkNBName v s p = .error .nameTooLong) ∧
    (v.length = 15 → p ≤ 255 →
      mkNBName v s p = .ok { value := pyUpper v, scope := scopeOrEmpty s, purpose := p }) := by
  constructor
  · intro h16
    simp [mkNBName, NB_NAME_VALUE_LEN, NB_NAME_FULL_LEN, h16]
  · intro h15 hp
    simp [mkNBName, NB_NAME_VALUE_LEN, NB_NAME_FULL_LEN, h15, pyBytesSingle, hp]

/-- Witness for C8 at a 16-byte and a 15-byte value. -/
theorem mkNBName_length_guard_witness :
    mkNBName (List.replicate 16 97) none 0 = .error .nameTooLong ∧
    mkNBName (List.replicate 15 97) none 0 =
      .ok { value := pyUpper (List.replicate 15 97), scope := scopeOrEmpty none, purpose := 0 } :=
  ⟨(mkNBName_length_guard (List.replicate 16 97) none 0).1 (by decide),
   (mkNBName_length_guard (List.replicate 15 97) none 0).2 (by decide) (by decide)⟩

/-- C5 amended: the flags subfields (r, opcode, nm-flags, rcode) are
bit-masked without any validation, for every value; whenever the
transaction id and the four counts fit 16 bits, `build_header` succeeds
and returns exactly 12 bytes. -/
theorem build_header_masks_flag_fields (m : NBNSMessageHeader)
    (h1 : m.name_trn_id < 65536) (h2 : m.qdcount < 65536) (h3 : m.ancount < 65536)
    (h4 : m.nscount < 65536) (h5 : m.arcount < 65536) :
    ∃ bs, build_header m = .ok bs ∧ bs.length = 12 := by
  have hrc : (0b0001111 &&& m.rcode) < 65536 :=
    Nat.lt_of_le_of_lt Nat.and_le_left (by norm_num)
  have hnm : ((0b1111111 &&& m.nm_flags) <<< 4) < 65536 := by
    rw [Nat.shiftLeft_eq]
    calc (0b1111111 &&& m.nm_flags) * 2 ^ 4 ≤ 127 * 2 ^ 4 :=
          Nat.mul_le_mul_right _ Nat.and_le_left
      _ < 65536 := by norm_num
  have hop : ((0b0001111 &&& m.opcode) <<< 11) < 65536 := by
    rw [Nat.shiftLeft_eq]
    calc (0b0001111 &&& m.opcode) * 2 ^ 11 ≤ 15 * 2 ^ 11 :=
          Nat.mul_le_mul_right _ Nat.and_le_left
      _ < 65536 := by norm_num
  have hr : ((0b0000001 &&& m.r) <<< 15) < 65536 := by
    rw [Nat.shiftLeft_eq]
    calc (0b0000001 &&& m.r) * 2 ^ 15 ≤ 1 * 2 ^ 15 :=
          Nat.mul_le_mul_right _ Nat.and_le_left
      _ < 65536 := by norm_num
  have hflags : ((0b0001111 &&& m.rcode)
      ||| ((0b1111111 &&& m.nm_flags) <<< 4)
      ||| ((0b0001111 &&& m.opcode) <<< 11)
      ||| ((0b0000001 &&& m.r) <<< 15)) < 65536 := by
    have h65536 : (65536 : Nat) = 2 ^ 16 := by norm_num
    rw [h65536] at hrc hnm hop hr ⊢
    exact Nat.or_lt_two_pow (Nat.or_lt_two_pow (Nat.or_lt_two_pow hrc hnm) hop) hr
  simp only [build_header, pack6H, packH, if_pos h1, if_pos hflags, if_pos h2,
    if_pos h3, if_pos h4, if_pos h5]
  exact ⟨_, rfl, by simp⟩

/-- Witness for the amended C5: every flags subfield out of range is
masked, the in-range words pack, and the header is 12 bytes. -/
theorem build_header_masks_flag_fields_witness :
    ∃ bs, build_header ⟨65535, 3, 77, 9999, 4095, 1, 2, 3, 4⟩ = .ok bs ∧ bs.length = 12 :=
  build_header_masks_flag_fields ⟨65535, 3, 77, 9999, 4095, 1, 2, 3, 4⟩
    (by decide) (by decide) (by decide) (by decide) (by decide)

/-- C9: for every name accepted by the constructor that encodes without
error, the output starts with the length byte 32 followed by exactly 32
bytes, each an ASCII letter in 'A'..'P' (0x41..0x50), and the whole
output ends with a zero byte. -/
theorem to_bytes_wire_shape (v : List Nat) (s : Option (List Nat)) (p : Nat)
    (n : NBName) (out : List Nat)
    (hmk : mkNBName v s p = .ok n) (henc : to_bytes n = .ok out) :
    out.head? = some 32 ∧
    ((out.drop 1).take 32).length = 32 ∧
    (∀ b ∈ (out.drop 1).take 32, 65 ≤ b ∧ b ≤ 80) ∧
    out.getLast? = some 0 := by
  have hval := mk_ok_value_short v s p n hmk
  have hlen := encode_value_length n hval
  have hpi : pack_item (encode_value n) = .ok (32 :: encode_value n) := by
    rw [pack_item, hlen, if_neg (by omega)]
  unfold to_bytes at henc
  rw [packItems, hpi] at henc
  cases hrest : packItems (if n.scope.isEmpty then [] else pySplit 46 n.scope) with
  | error e =>
    rw [hrest] at henc
    exact absurd henc (by simp)
  | ok ps =>
    rw [hrest] at henc
    have henc2 : Except.ok (((32 :: encode_value n) :: ps).flatten ++ [ZERO]) =
        Except.ok (ε := NBTError) out := henc
    have hshape : ((32 :: encode_value n) :: ps).flatten ++ [ZERO] =
        32 :: (encode_value n ++ (ps.flatten ++ [0])) := by
      simp [ZERO, List.flatten_cons, List.append_assoc]
    have hout : out = 32 :: (encode_value n ++ (ps.flatten ++ [0])) := by
      rw [hshape] at henc2
      injection henc2 with hh
      exact hh.symm
    subst hout
    refine ⟨rfl, ?_, ?_, ?_⟩
    · simp only [List.drop_succ_cons, List.drop_zero]
      rw [List.take_left' hlen, hlen]
    · simp only [List.drop_succ_cons, List.drop_zero]
      rw [List.take_left' hlen]
      intro b hb
      have hmem := flatten_map_encode_byte_mem
        ((if n.value = WILDCARD then NB_NAME_WILDCARD_PADDED else padName n.value)
          ++ [n.purpose]) b hb
      simpa [ORD_A] using hmem
    · show (32 :: (encode_value n ++ (ps.flatten ++ [0]))).getLast? = some 0
      have hconcat : (32 :: (encode_value n ++ (ps.flatten ++ [0]))) =
          (32 :: (encode_value n ++ ps.flatten)) ++ [0] := by
        simp [List.append_assoc]
      rw [hconcat, List.getLast?_concat]

/-- The name with value "A", no scope and purpose 0. -/
def sampleNameA : NBName := { value := [65], scope := [], purpose := 0 }

/-- The wire bytes of `sampleNameA`. -/
def sampleOutA : List Nat := [32, 69, 66] ++ (List.replicate 14 [67, 65]).flatten ++ [65, 65, 0]

/-- Witness for C9 at the concrete name "A". -/
theorem to_bytes_wire_shape_witness :
    sampleOutA.head? = some 32 ∧
    ((sampleOutA.drop 1).take 32).length = 32 ∧
    (∀ b ∈ (sampleOutA.drop 1).take 32, 65 ≤ b ∧ b ≤ 80) ∧
    sampleOutA.getLast? = some 0 :=
  to_bytes_wire_shape [65] none 0 sampleNameA sampleOutA (by rfl) (by rfl)
